import Mathlib

/-!
Shallow embedding of the Video Shorts Processing API core
(`src/routes/process.ts`, `src/utils/validate.ts`, `src/utils/tmp.ts`,
`src/utils/ffmpeg.ts` and `src/types.ts`), together with theorems settling
the specification claims about options parsing, eligibility validation, the
pipeline orchestration, filename sanitization, the transcode timeout
configuration, the settle-once discipline of the transcoder promise, and
recursive workspace removal.

JavaScript numbers are modelled as `JSNum` (either NaN or an exact rational):
every arithmetic operation performed by the embedded code is exact on the
rationals involved, so only NaN propagation has to be tracked explicitly.
JavaScript strings are modelled as `List Char` (all characters produced by the
sanitizer are ASCII; an astral character, two UTF-16 units in JavaScript, is
modelled as a single replaced character, which does not affect any claim).
-/

/-- A JavaScript number: NaN or an exact rational value. -/
inductive JSNum where
  | nan : JSNum
  | val : ℚ → JSNum
deriving DecidableEq

/-- JavaScript truthiness of a number: NaN and 0 are falsy. -/
def jsTruthy : JSNum → Bool
  | .nan => false
  | .val q => decide (q ≠ 0)

/-- JavaScript `x || d` for a number `x` and rational default `d`. -/
def jsOrDefault (x : JSNum) (d : ℚ) : JSNum :=
  if jsTruthy x then x else .val d

/-- `Math.min(c, x)` with a rational constant `c`: NaN propagates. -/
def jsMinConst (c : ℚ) : JSNum → JSNum
  | .nan => .nan
  | .val q => .val (min c q)

/-- `Math.max(c, x)` with a rational constant `c`: NaN propagates. -/
def jsMaxConst (c : ℚ) : JSNum → JSNum
  | .nan => .nan
  | .val q => .val (max c q)

/-- `Number(body.x)`: an absent field (`undefined`) converts to NaN; a present
field carries the number its multipart string converts to (NaN when the string
is not numeric). -/
def jsNumberOf : Option JSNum → JSNum
  | none => .nan
  | some v => v

/-- `ConversionMode` from `src/types.ts`. -/
inductive ConversionMode where
  | pad : ConversionMode
  | blur : ConversionMode
deriving DecidableEq

/-- `VideoMetadata` from `src/types.ts` (all numeric fields are JS numbers
that are real in every reachable state, hence rationals here). -/
structure VideoMetadata where
  width : ℚ
  height : ℚ
  durationSec : ℚ
  aspectRatio : ℚ
  hasAudio : Bool
deriving DecidableEq

/-- `ProcessOptions` from `src/types.ts`, as consumed by the pipeline. -/
structure ProcessOptions where
  mode : ConversionMode
  targetWidth : ℚ
  targetHeight : ℚ
  maxDurationSec : ℚ
  tolerance : ℚ
  forceConvert : Bool
deriving DecidableEq

/-- `DEFAULT_PROCESS_OPTIONS` from `src/types.ts`. -/
def DEFAULT_PROCESS_OPTIONS : ProcessOptions :=
  { mode := .blur
    targetWidth := 1080
    targetHeight := 1920
    maxDurationSec := 60
    tolerance := 0.08
    forceConvert := false }

/-- `TARGET_ASPECT = 9 / 16` from `src/types.ts`. -/
def TARGET_ASPECT : ℚ := 9 / 16

/-- `MAX_FILE_SIZE_BYTES = 200 * 1024 * 1024` from `src/types.ts`. -/
def MAX_FILE_SIZE_BYTES : ℕ := 200 * 1024 * 1024

/-- The `mode` field of a request body: absent, one of the two recognized
strings, or any other value. -/
inductive ModeField where
  | absent : ModeField
  | pad : ModeField
  | blur : ModeField
  | other : ModeField
deriving DecidableEq

/-- The `forceConvert` field of a request body: the string `'true'`, the
boolean `true`, or anything else (including absent). -/
inductive ForceField where
  | strTrue : ForceField
  | boolTrue : ForceField
  | otherOrAbsent : ForceField
deriving DecidableEq

/-- A request body as seen by `parseProcessOptions` in
`src/routes/process.ts`: each numeric field is either absent (`none`) or
present with the JS number its value converts to under `Number(...)`. -/
structure Body where
  mode : ModeField
  targetWidth : Option JSNum
  targetHeight : Option JSNum
  maxDurationSec : Option JSNum
  tolerance : Option JSNum
  forceConvert : ForceField
deriving DecidableEq

/-- The record returned by `parseProcessOptions`: numeric fields are JS
numbers, since the tolerance computation can produce NaN. -/
structure ParsedOptions where
  mode : ConversionMode
  targetWidth : JSNum
  targetHeight : JSNum
  maxDurationSec : JSNum
  tolerance : JSNum
  forceConvert : Bool
deriving DecidableEq

/-- `parseProcessOptions` from `src/routes/process.ts` (lines 36-55).
The tolerance line of the source reads
`Math.max(0.001, Math.min(0.5, Number(body.tolerance) ?? DEFAULT.tolerance))`:
since `Number(...)` always returns a number (never null/undefined), the `??`
operator always takes its left operand, so the default never applies and an
absent field flows through as NaN. -/
def parseProcessOptions (body : Body) : ParsedOptions :=
  let mode : ConversionMode :=
    match body.mode with
    | .pad => .pad
    | .blur => .blur
    | _ => DEFAULT_PROCESS_OPTIONS.mode
  { mode := mode
    targetWidth :=
      jsMaxConst 1 (jsMinConst 4096
        (jsOrDefault (jsNumberOf body.targetWidth) DEFAULT_PROCESS_OPTIONS.targetWidth))
    targetHeight :=
      jsMaxConst 1 (jsMinConst 4096
        (jsOrDefault (jsNumberOf body.targetHeight) DEFAULT_PROCESS_OPTIONS.targetHeight))
    maxDurationSec :=
      jsMaxConst 1 (jsMinConst 300
        (jsOrDefault (jsNumberOf body.maxDurationSec) DEFAULT_PROCESS_OPTIONS.maxDurationSec))
    tolerance :=
      jsMaxConst 0.001 (jsMinConst 0.5 (jsNumberOf body.tolerance))
    forceConvert :=
      match body.forceConvert with
      | .strTrue => true
      | .boolTrue => true
      | .otherOrAbsent => false }

/-- A request body with every field absent. -/
def emptyBody : Body :=
  { mode := .absent
    targetWidth := none
    targetHeight := none
    maxDurationSec := none
    tolerance := none
    forceConvert := .otherOrAbsent }

/-- `ShortsValidation` from `src/types.ts`. -/
structure ShortsValidation where
  isVertical : Bool
  aspectOk : Bool
  durationOk : Bool
  shortsEligible : Bool
  reasons : List String
deriving DecidableEq

/-- `validateShorts` from `src/utils/validate.ts` (lines 8-32). The source
builds `reasons` by three conditional pushes in this order. -/
def validateShorts (meta : VideoMetadata) (options : ProcessOptions) : ShortsValidation :=
  let isVertical : Bool := decide (meta.width < meta.height)
  let aspectOk : Bool := decide (|meta.aspectRatio - TARGET_ASPECT| ≤ options.tolerance)
  let durationOk : Bool := decide (meta.durationSec ≤ options.maxDurationSec)
  let reasons : List String :=
    (if isVertical then [] else ["NOT_VERTICAL"]) ++
    (if aspectOk then [] else ["ASPECT_RATIO_MISMATCH"]) ++
    (if durationOk then [] else ["DURATION_EXCEEDED"])
  { isVertical := isVertical
    aspectOk := aspectOk
    durationOk := durationOk
    shortsEligible := durationOk && isVertical && aspectOk
    reasons := reasons }

/-- The character class of `sanitizeFilename` in `src/utils/tmp.ts`:
`[a-zA-Z0-9._-]`. -/
def allowedChar (c : Char) : Bool :=
  c.isAlphanum || c = '.' || c = '_' || c = '-'

/-- `sanitizeFilename` from `src/utils/tmp.ts` (lines 36-38):
`name.replace(/[^a-zA-Z0-9._-]/g, "_").slice(0, 200) || "video"`. -/
def sanitizeFilename (name : List Char) : List Char :=
  let replaced := name.map (fun c => if allowedChar c then c else '_')
  let sliced := replaced.take 200
  if sliced.isEmpty then "video".toList else sliced

/-- The final path segment: everything after the last `/` (posix
`path.basename` with no extension argument). -/
def afterLastSlash (l : List Char) : List Char :=
  (l.reverse.takeWhile (fun c => c ≠ '/')).reverse

/-- Node's `path.extname`: the substring of the final path segment from its
last dot to the end, or empty when there is no dot or the only dot is the
segment's first character. -/
def extname (l : List Char) : List Char :=
  let b := afterLastSlash l
  let s := (b.reverse).span (fun c => c ≠ '.')
  match s.2 with
  | [] => []
  | _ :: beforeDot => if beforeDot.isEmpty then [] else '.' :: s.1.reverse

/-- Whether `l` ends with the suffix `suf`. -/
def endsWithChars (l suf : List Char) : Bool :=
  suf.reverse.isPrefixOf l.reverse

/-- Node's `path.basename(l, ext)`: the final path segment, with `ext`
stripped when the segment ends in `ext` without being equal to it. -/
def basenameWithExt (l ext : List Char) : List Char :=
  let b := afterLastSlash l
  if b ≠ ext ∧ endsWithChars b ext then b.take (b.length - ext.length) else b

/-- The `Content-Disposition` filename computed by `processShorts` in
`src/routes/process.ts` (lines 145-151): the sanitized base of the original
name (the raw name defaulting to `video` when empty, the extension to `.mp4`
when absent), the `shorts_` tag when converted, and the *unsanitized*
extension appended at the end. -/
def dispositionFilename (converted : Bool) (originalname : List Char) : List Char :=
  let raw := if originalname.isEmpty then "video".toList else originalname
  let ext0 := extname raw
  let ext := if ext0.isEmpty then ".mp4".toList else ext0
  let base0 := basenameWithExt raw ext
  let base := if base0.isEmpty then "video".toList else base0
  let safeBase := sanitizeFilename base
  (if converted then "shorts_".toList else []) ++ safeBase ++ ext

/-- The staged upload as `processShorts` sees it (`req.file`): its byte size
and its caller-supplied original name. -/
structure FileInfo where
  size : ℕ
  originalname : List Char
deriving DecidableEq

/-- Outcome of `getVideoMetadata` from `src/utils/ffprobe.ts`: a rejection —
every rejection message contains `ffprobe`, so the catch block of
`processShorts` classifies them all as `PROBE_FAILED` — or the probed
metadata. -/
inductive ProbeResult where
  | failed : ProbeResult
  | ok : VideoMetadata → ProbeResult
deriving DecidableEq

/-- A transcoder failure: every rejection of `convertToShorts` carries a
message containing `ffmpeg` or `timeout`, so the catch block of
`processShorts` classifies them all as `CONVERSION_FAILED`. -/
inductive ConvErr where
  | exitNonZero : ConvErr
  | outputMissing : ConvErr
  | timedOut : ConvErr
  | spawnFailed : ConvErr
deriving DecidableEq

/-- How the response stream terminates: the `end` event or the `error`
event. The cleanup closure of `processShorts` is registered on both. -/
inductive StreamEvt where
  | ended : StreamEvt
  | errored : StreamEvt
deriving DecidableEq

/-- Which file the success response streams: the staged input
(`outPath = inputPath`) or the produced `output.mp4`. -/
inductive OutPath where
  | stagedInput : OutPath
  | producedOutput : OutPath
deriving DecidableEq

/-- The environment a single `/process/shorts` request runs against: the
uploaded file if any, the prober's verdict, the transcoder's verdict (used
only when a conversion is attempted; `none` = success), and how the response
stream terminates (used only on the success path). -/
structure Scenario where
  file : Option FileInfo
  probe : ProbeResult
  convert : Option ConvErr
  stream : StreamEvt
deriving DecidableEq

/-- The success payload emitted by `processShorts`: the final metadata and
flags surfaced as `X-*` headers, the disposition filename, and which file is
streamed. -/
structure SuccessResponse where
  finalMeta : VideoMetadata
  shortsEligible : Bool
  converted : Bool
  conversionMode : ConversionMode
  disposition : List Char
  outPath : OutPath
deriving DecidableEq

/-- A terminal HTTP response of `processShorts`: a JSON error with status and
stable code, or a streamed file. -/
inductive HttpResponse where
  | jsonError : ℕ → String → HttpResponse
  | fileStream : SuccessResponse → HttpResponse
deriving DecidableEq

/-- What one run of `processShorts` leaves behind: the response, whether the
request's unique tmp directory was destroyed on this path, and whether
`convertToShorts` was invoked. -/
structure RunResult where
  response : HttpResponse
  tmpDestroyed : Bool
  convertAttempted : Bool
deriving DecidableEq

/-- `processShorts` from `src/routes/process.ts` (lines 97-215), per terminal
path. The no-file branch (lines 103-106) returns before any cleanup runs and
is outside the catch block, so the tmp directory survives it. Every thrown
error (size check, probe, conversion) lands in the catch block, which removes
the tmp directory before responding. On the success path the cleanup closure
runs on both the `end` and the `error` event of the response stream. -/
def processShorts (options : ProcessOptions) (s : Scenario) : RunResult :=
  match s.file with
  | none =>
      { response := .jsonError 400 "NO_FILE"
        tmpDestroyed := false
        convertAttempted := false }
  | some f =>
      if MAX_FILE_SIZE_BYTES < f.size then
        { response := .jsonError 400 "FILE_TOO_LARGE"
          tmpDestroyed := true
          convertAttempted := false }
      else
        match s.probe with
        | .failed =>
            { response := .jsonError 422 "PROBE_FAILED"
              tmpDestroyed := true
              convertAttempted := false }
        | .ok meta =>
            let validation := validateShorts meta options
            let shouldConvert := options.forceConvert || !validation.shortsEligible
            let streamDestroyed : Bool :=
              match s.stream with
              | .ended => true
              | .errored => true
            if shouldConvert then
              match s.convert with
              | some _ =>
                  { response := .jsonError 500 "CONVERSION_FAILED"
                    tmpDestroyed := true
                    convertAttempted := true }
              | none =>
                  { response := .fileStream
                      { finalMeta :=
                          { meta with
                            width := options.targetWidth
                            height := options.targetHeight
                            aspectRatio := options.targetWidth / options.targetHeight }
                        shortsEligible := validation.shortsEligible
                        converted := true
                        conversionMode := options.mode
                        disposition := dispositionFilename true f.originalname
                        outPath := .producedOutput }
                    tmpDestroyed := streamDestroyed
                    convertAttempted := true }
            else
              { response := .fileStream
                  { finalMeta := meta
                    shortsEligible := validation.shortsEligible
                    converted := false
                    conversionMode := options.mode
                    disposition := dispositionFilename false f.originalname
                    outPath := .stagedInput }
                tmpDestroyed := streamDestroyed
                convertAttempted := false }

/-- `MIN_TIMEOUT_SEC` from `src/utils/ffmpeg.ts`. -/
def MIN_TIMEOUT_SEC : ℤ := 60

/-- `MAX_TIMEOUT_SEC` from `src/utils/ffmpeg.ts`. -/
def MAX_TIMEOUT_SEC : ℤ := 3600

/-- Modelled from the spec: `FFMPEG_TIMEOUT_SEC_DEFAULT` is imported by
`src/utils/ffmpeg.ts` from `types.ts`, whose provided copy predates the
constant; the module header of `ffmpeg.ts` and the deployment documentation
both state the default of 600 seconds. -/
def FFMPEG_TIMEOUT_SEC_DEFAULT : ℤ := 600

/-- The `FFMPEG_TIMEOUT_SEC` environment variable as `getFfmpegTimeoutSec`
reads it: unset or empty, present but not parseable as an integer
(`parseInt` yields NaN), or parseable to an integer. -/
inductive EnvTimeout where
  | absent : EnvTimeout
  | unparseable : EnvTimeout
  | num : ℤ → EnvTimeout
deriving DecidableEq

/-- `getFfmpegTimeoutSec` from `src/utils/ffmpeg.ts` (lines 18-24): unset or
empty returns the default; an unparseable value (NaN, not finite) or a value
below `MIN_TIMEOUT_SEC` returns the default; otherwise the value capped at
`MAX_TIMEOUT_SEC`. -/
def getFfmpegTimeoutSec : EnvTimeout → ℤ
  | .absent => FFMPEG_TIMEOUT_SEC_DEFAULT
  | .unparseable => FFMPEG_TIMEOUT_SEC_DEFAULT
  | .num n => if n < MIN_TIMEOUT_SEC then FFMPEG_TIMEOUT_SEC_DEFAULT else min n MAX_TIMEOUT_SEC

/-- A termination event delivered to the promise executor of
`convertToShorts` in `src/utils/ffmpeg.ts`: the timeout callback firing, the
`error` event of the spawned process, or its `close` event with an exit code
(`none` = killed by signal) and whether the output file exists. Node runs
each handler to completion before the next, so an invocation is a finite
sequence of these events. -/
inductive FfmpegEvent where
  | timeoutFires : FfmpegEvent
  | procError : FfmpegEvent
  | procClose : Option ℤ → Bool → FfmpegEvent
deriving DecidableEq

/-- A settlement of the conversion promise. -/
inductive Settle where
  | resolved : Settle
  | rejected : Settle
deriving DecidableEq

/-- The executor's state: the one-shot `settled` guard of `convertToShorts`
(lines 49-50), and the log of `resolve`/`reject` calls performed so far. -/
structure ConvState where
  settled : Bool
  settles : List Settle
deriving DecidableEq

/-- One handler of `convertToShorts` (lines 92-120) running to completion.
Each handler first consults the `settled` guard and returns without acting
when it is set; otherwise it sets the guard and settles the promise exactly
as the source does: the timeout and `error` handlers reject, the `close`
handler rejects on a non-zero (or signal) exit code, rejects when the output
file is missing, and resolves otherwise. -/
def convertStep (s : ConvState) (e : FfmpegEvent) : ConvState :=
  match e with
  | .timeoutFires =>
      if s.settled then s
      else { settled := true, settles := s.settles ++ [.rejected] }
  | .procError =>
      if s.settled then s
      else { settled := true, settles := s.settles ++ [.rejected] }
  | .procClose code outExists =>
      if s.settled then s
      else if code ≠ some 0 then { settled := true, settles := s.settles ++ [.rejected] }
      else if !outExists then { settled := true, settles := s.settles ++ [.rejected] }
      else { settled := true, settles := s.settles ++ [.resolved] }

/-- One invocation of `convertToShorts`, processing its termination events in
the order the event loop delivers them, starting unsettled. -/
def convertRun (evts : List FfmpegEvent) : ConvState :=
  evts.foldl convertStep { settled := false, settles := [] }

/-- A directory entry as `rmDirRecursive` in `src/utils/tmp.ts` encounters
it: a file, flagged when its `unlinkSync` call fails (permissions, etc.), or
a subdirectory with its own entries. -/
inductive Entry where
  | file : Bool → Entry
  | dir : List Entry → Entry

mutual

/-- Removal of one entry by the loop body of `rmDirRecursive` (lines 62-66):
a file is unlinked (`none`) unless its removal fails, in which case the
exception propagates with the entry intact (`some`); a subdirectory is
removed recursively, and on an inner failure the partially-emptied
subdirectory remains. -/
def rmEntry : Entry → Option Entry
  | .file stuck => if stuck then some (.file stuck) else none
  | .dir es =>
      match rmList es with
      | none => none
      | some es2 => some (.dir es2)

/-- The `for` loop of `rmDirRecursive` over a directory's entries: `none`
when every entry was removed; `some remaining` when an entry's removal threw,
aborting the loop with that entry's remains and all later entries untouched. -/
def rmList : List Entry → Option (List Entry)
  | [] => none
  | e :: rest =>
      match rmEntry e with
      | none => rmList rest
      | some e2 => some (e2 :: rest)

end

/-- `rmDirRecursive` from `src/utils/tmp.ts` (lines 59-68) applied to a
directory that is absent (`none`) or present with its entries. Returns the
directory's state afterwards and whether the call threw: an absent directory
returns immediately without error; otherwise the entries are removed in
order, and the first failing entry aborts the call with the exception
propagating to the caller (the final `rmdirSync` on the then-empty directory
is modelled as succeeding). -/
def rmDirRecursive : Option (List Entry) → Option (List Entry) × Bool
  | none => (none, false)
  | some es =>
      match rmList es with
      | none => (none, false)
      | some es2 => (some es2, true)

/-! Helper lemmas. -/

/-- A handler that finds the `settled` guard set leaves the state untouched. -/
theorem convertStep_of_settled (s : ConvState) (e : FfmpegEvent) (h : s.settled = true) :
    convertStep s e = s := by
  cases e <;> simp [convertStep, h]

/-- Once the guard is set, the remaining events change nothing. -/
theorem foldl_convertStep_of_settled (l : List FfmpegEvent) (s : ConvState)
    (h : s.settled = true) : l.foldl convertStep s = s := by
  induction l with
  | nil => rfl
  | cons e rest ih => rw [List.foldl_cons, convertStep_of_settled s e h, ih]

/-- A handler that finds the guard unset sets it and performs exactly one
settlement. -/
theorem convertStep_of_unsettled (s : ConvState) (e : FfmpegEvent) (h : s.settled = false) :
    ∃ x, convertStep s e = { settled := true, settles := s.settles ++ [x] } := by
  cases e with
  | timeoutFires => exact ⟨.rejected, by simp [convertStep, h]⟩
  | procError => exact ⟨.rejected, by simp [convertStep, h]⟩
  | procClose code outExists =>
      by_cases hc : code = some 0
      · cases outExists with
        | true => exact ⟨.resolved, by simp [convertStep, h, hc]⟩
        | false => exact ⟨.rejected, by simp [convertStep, h, hc]⟩
      · exact ⟨.rejected, by simp [convertStep, h, hc]⟩

/-! Claim theorems. -/

/-- C1: the claim that every terminal outcome of `/process/shorts` destroys
the request's tmp directory fails on the no-file path: `processShorts`
answers `400 NO_FILE` by an early `return` that runs no cleanup (unlike the
sibling `inspect` handler, which removes the directory on its no-file path),
so the unique tmp directory created by the middleware survives. -/
theorem processShorts_noFile_leaves_tmpDir :
    (processShorts DEFAULT_PROCESS_OPTIONS
        { file := none, probe := .failed, convert := none, stream := .ended }).response
      = .jsonError 400 "NO_FILE"
  ∧ (processShorts DEFAULT_PROCESS_OPTIONS
        { file := none, probe := .failed, convert := none, stream := .ended }).tmpDestroyed
      = false :=
  ⟨rfl, rfl⟩

/-- C2: the claim that an omitted `tolerance` field yields the documented
default 0.08 fails: `Number(body.tolerance)` is NaN for an absent field, the
`??` never applies (NaN is not nullish), and NaN propagates through
`Math.min`/`Math.max`, so the parsed tolerance is NaN — not the default. -/
theorem parseProcessOptions_absent_tolerance_nan :
    (parseProcessOptions emptyBody).tolerance = JSNum.nan
  ∧ (parseProcessOptions emptyBody).tolerance
      ≠ JSNum.val DEFAULT_PROCESS_OPTIONS.tolerance :=
  ⟨rfl, by decide⟩

/-- C7 counterexample: a configured timeout of 30 seconds, below the minimum
of the window, yields the default 600 seconds — not the window's minimum 60
that the claim's clamping would give. -/
theorem getFfmpegTimeoutSec_below_min_counterexample :
    getFfmpegTimeoutSec (.num 30) = 600 ∧ getFfmpegTimeoutSec (.num 30) ≠ 60 :=
  ⟨by decide, by decide⟩

/-- C7 amended: the effective budget is the configured value capped at 3600
when the value is at least 60, and the default 600 when the value is absent,
unparseable, or below 60; in every case it lies in the [60, 3600] window. -/
theorem getFfmpegTimeoutSec_amended (e : EnvTimeout) :
    (e = .absent → getFfmpegTimeoutSec e = FFMPEG_TIMEOUT_SEC_DEFAULT)
  ∧ (e = .unparseable → getFfmpegTimeoutSec e = FFMPEG_TIMEOUT_SEC_DEFAULT)
  ∧ (∀ n : ℤ, e = .num n → n < MIN_TIMEOUT_SEC →
      getFfmpegTimeoutSec e = FFMPEG_TIMEOUT_SEC_DEFAULT)
  ∧ (∀ n : ℤ, e = .num n → MIN_TIMEOUT_SEC ≤ n →
      getFfmpegTimeoutSec e = min n MAX_TIMEOUT_SEC)
  ∧ MIN_TIMEOUT_SEC ≤ getFfmpegTimeoutSec e
  ∧ getFfmpegTimeoutSec e ≤ MAX_TIMEOUT_SEC := by
  refine ⟨?_, ?_, ?_, ?_, ?_, ?_⟩
  · rintro rfl; rfl
  · rintro rfl; rfl
  · rintro n rfl h
    simp [getFfmpegTimeoutSec, h]
  · rintro n rfl h
    simp [getFfmpegTimeoutSec, MIN_TIMEOUT_SEC] at *
    omega
  · cases e with
    | absent => decide
    | unparseable => decide
    | num n =>
        simp only [getFfmpegTimeoutSec, MIN_TIMEOUT_SEC, MAX_TIMEOUT_SEC,
          FFMPEG_TIMEOUT_SEC_DEFAULT]
        split <;> omega
  · cases e with
    | absent => decide
    | unparseable => decide
    | num n =>
        simp only [getFfmpegTimeoutSec, MIN_TIMEOUT_SEC, MAX_TIMEOUT_SEC,
          FFMPEG_TIMEOUT_SEC_DEFAULT]
        split <;> omega

/-- C7 witness: a configured value of 70 seconds is inside the window and is
used as-is (capped at 3600). -/
theorem getFfmpegTimeoutSec_amended_witness :
    MIN_TIMEOUT_SEC ≤ (70 : ℤ) ∧ getFfmpegTimeoutSec (.num 70) = min 70 MAX_TIMEOUT_SEC :=
  ⟨by decide, (getFfmpegTimeoutSec_amended (.num 70)).2.2.2.1 70 rfl (by decide)⟩

/-- C9 counterexample: on a directory whose first entry fails to unlink,
`rmDirRecursive` throws (the exception from `unlinkSync` propagates) and the
second, removable entry is left in place — the loop does not continue past
the failure and the failure is not swallowed. -/
theorem rmDirRecursive_partial_failure_counterexample :
    (rmDirRecursive (some [Entry.file true, Entry.file false])).2 = true
  ∧ (rmDirRecursive (some [Entry.file true, Entry.file false])).1
      = some [Entry.file true, Entry.file false] :=
  ⟨rfl, rfl⟩

/-- C9 amended: `rmDirRecursive` is idempotent — on an absent directory it
returns without error and without touching anything — but when removing an
entry fails the exception propagates to the caller and the loop stops, so
the remaining entries are not removed (call sites swallow the exception
in their own try/catch blocks instead). -/
theorem rmDirRecursive_amended :
    rmDirRecursive none = (none, false)
  ∧ (∀ rest : List Entry,
      rmDirRecursive (some (Entry.file true :: rest))
        = (some (Entry.file true :: rest), true)) := by
  refine ⟨rfl, ?_⟩
  intro rest
  simp [rmDirRecursive, rmList, rmEntry]

/-- C3: `validateShorts` computes eligibility as the conjunction of the
strict vertical check, the aspect check against 9/16 within tolerance, and
the non-strict duration check; `reasons` contains exactly the labels of the
failed criteria, listed in the fixed order not-vertical, aspect-mismatch,
duration-exceeded; and a single failed criterion yields exactly its own
label. -/
theorem validateShorts_spec (meta : VideoMetadata) (options : ProcessOptions) :
    ((validateShorts meta options).shortsEligible
      = (decide (meta.width < meta.height)
          && decide (|meta.aspectRatio - 9 / 16| ≤ options.tolerance)
          && decide (meta.durationSec ≤ options.maxDurationSec)))
  ∧ ((validateShorts meta options).isVertical = decide (meta.width < meta.height))
  ∧ ("NOT_VERTICAL" ∈ (validateShorts meta options).reasons ↔ ¬ meta.width < meta.height)
  ∧ ("ASPECT_RATIO_MISMATCH" ∈ (validateShorts meta options).reasons
      ↔ ¬ |meta.aspectRatio - 9 / 16| ≤ options.tolerance)
  ∧ ("DURATION_EXCEEDED" ∈ (validateShorts meta options).reasons
      ↔ ¬ meta.durationSec ≤ options.maxDurationSec)
  ∧ ((validateShorts meta options).reasons
      = ["NOT_VERTICAL", "ASPECT_RATIO_MISMATCH", "DURATION_EXCEEDED"].filter
          (fun l => decide (l ∈ (validateShorts meta options).reasons)))
  ∧ (¬ meta.width < meta.height → |meta.aspectRatio - 9 / 16| ≤ options.tolerance →
      meta.durationSec ≤ options.maxDurationSec →
      (validateShorts meta options).reasons = ["NOT_VERTICAL"])
  ∧ (meta.width < meta.height → ¬ |meta.aspectRatio - 9 / 16| ≤ options.tolerance →
      meta.durationSec ≤ options.maxDurationSec →
      (validateShorts meta options).reasons = ["ASPECT_RATIO_MISMATCH"])
  ∧ (meta.width < meta.height → |meta.aspectRatio - 9 / 16| ≤ options.tolerance →
      ¬ meta.durationSec ≤ options.maxDurationSec →
      (validateShorts meta options).reasons = ["DURATION_EXCEEDED"]) := by
  by_cases hv : meta.width < meta.height <;>
    by_cases ha : |meta.aspectRatio - 9 / 16| ≤ options.tolerance <;>
      by_cases hd : meta.durationSec ≤ options.maxDurationSec <;>
        simp [validateShorts, TARGET_ASPECT, hv, ha, hd]

/-- C3 witness: metadata 1080x1920, aspect 9/16, duration 90s against the
default options fails only the duration criterion, and the violation list is
exactly the duration label. -/
theorem validateShorts_spec_witness :
    ((1080 : ℚ) < 1920)
  ∧ (validateShorts ⟨1080, 1920, 90, 9 / 16, true⟩ DEFAULT_PROCESS_OPTIONS).reasons
      = ["DURATION_EXCEEDED"] :=
  ⟨by norm_num,
   (validateShorts_spec ⟨1080, 1920, 90, 9 / 16, true⟩ DEFAULT_PROCESS_OPTIONS).2.2.2.2.2.2.2.2
     (by norm_num) (by norm_num [DEFAULT_PROCESS_OPTIONS]) (by norm_num [DEFAULT_PROCESS_OPTIONS])⟩

/-- C8: per invocation of `convertToShorts`, the promise is settled at most
once in every interleaving of the timeout, error, and close events, and
exactly once as soon as any termination event fires: whichever handler runs
first settles, and the one-shot guard makes every later handler a no-op. -/
theorem convertRun_settles_once (evts : List FfmpegEvent) :
    (convertRun evts).settles.length ≤ 1
  ∧ (evts ≠ [] → (convertRun evts).settles.length = 1) := by
  cases evts with
  | nil => exact ⟨by simp [convertRun], fun h => absurd rfl h⟩
  | cons e rest =>
      obtain ⟨x, hx⟩ := convertStep_of_unsettled { settled := false, settles := [] } e rfl
      have hrun : convertRun (e :: rest) = { settled := true, settles := [x] } := by
        unfold convertRun
        rw [List.foldl_cons, hx]
        exact foldl_convertStep_of_settled rest _ rfl
      rw [hrun]
      exact ⟨by simp, fun _ => by simp⟩

/-- C8 witness: the process closing cleanly settles the promise exactly
once. -/
theorem convertRun_settles_once_witness :
    ([FfmpegEvent.procClose (some 0) true] ≠ [])
  ∧ (convertRun [FfmpegEvent.procClose (some 0) true]).settles.length = 1 :=
  ⟨by simp, (convertRun_settles_once [FfmpegEvent.procClose (some 0) true]).2 (by simp)⟩

/-- C4: `processShorts` invokes the transcoder iff `forceConvert` is set or
the input is not eligible; with `forceConvert` unset and an eligible input no
conversion is attempted and the response streams the staged input itself with
the probed metadata unchanged. -/
theorem processShorts_convert_decision
    (options : ProcessOptions) (f : FileInfo) (meta : VideoMetadata)
    (conv : Option ConvErr) (strm : StreamEvt)
    (hsize : f.size ≤ MAX_FILE_SIZE_BYTES) :
    (processShorts options
        { file := some f, probe := .ok meta, convert := conv, stream := strm }).convertAttempted
      = (options.forceConvert || !(validateShorts meta options).shortsEligible)
  ∧ (options.forceConvert = false →
      (validateShorts meta options).shortsEligible = true →
      (processShorts options
          { file := some f, probe := .ok meta, convert := conv, stream := strm }).response
        = .fileStream
            { finalMeta := meta
              shortsEligible := true
              converted := false
              conversionMode := options.mode
              disposition := dispositionFilename false f.originalname
              outPath := .stagedInput }) := by
  have hnt : ¬ MAX_FILE_SIZE_BYTES < f.size := Nat.not_lt.mpr hsize
  constructor
  · cases hb : (options.forceConvert || !(validateShorts meta options).shortsEligible) with
    | true => cases conv <;> simp [processShorts, hnt, hb]
    | false => simp [processShorts, hnt, hb]
  · intro hf he
    simp [processShorts, hnt, hf, he]

/-- C4 witness: an eligible 1080x1920, 30-second input under the default
options (forceConvert off) is streamed back unconverted with its probed
metadata. -/
theorem processShorts_convert_decision_witness :
    ((⟨1000, "a.mp4".toList⟩ : FileInfo).size ≤ MAX_FILE_SIZE_BYTES)
  ∧ (processShorts DEFAULT_PROCESS_OPTIONS
        { file := some ⟨1000, "a.mp4".toList⟩
          probe := .ok ⟨1080, 1920, 30, 9 / 16, true⟩
          convert := none
          stream := .ended }).response
      = .fileStream
          { finalMeta := ⟨1080, 1920, 30, 9 / 16, true⟩
            shortsEligible := true
            converted := false
            conversionMode := DEFAULT_PROCESS_OPTIONS.mode
            disposition := dispositionFilename false ("a.mp4".toList)
            outPath := .stagedInput } :=
  ⟨by norm_num [MAX_FILE_SIZE_BYTES],
   (processShorts_convert_decision DEFAULT_PROCESS_OPTIONS ⟨1000, "a.mp4".toList⟩
      ⟨1080, 1920, 30, 9 / 16, true⟩ none .ended
      (by norm_num [MAX_FILE_SIZE_BYTES])).2 rfl
     (by norm_num [validateShorts, DEFAULT_PROCESS_OPTIONS, TARGET_ASPECT])⟩

/-- C5: after a successful conversion the final reported metadata carries the
requested target width and height, the aspect ratio targetWidth/targetHeight,
and the probed duration and audio flag unchanged — the output is not
re-probed. -/
theorem processShorts_converted_finalMeta
    (options : ProcessOptions) (f : FileInfo) (meta : VideoMetadata) (strm : StreamEvt)
    (hsize : f.size ≤ MAX_FILE_SIZE_BYTES)
    (hconv : (options.forceConvert || !(validateShorts meta options).shortsEligible) = true) :
    (processShorts options
        { file := some f, probe := .ok meta, convert := none, stream := strm }).response
      = .fileStream
          { finalMeta :=
              { width := options.targetWidth
                height := options.targetHeight
                durationSec := meta.durationSec
                aspectRatio := options.targetWidth / options.targetHeight
                hasAudio := meta.hasAudio }
            shortsEligible := (validateShorts meta options).shortsEligible
            converted := true
            conversionMode := options.mode
            disposition := dispositionFilename true f.originalname
            outPath := .producedOutput } := by
  have hnt : ¬ MAX_FILE_SIZE_BYTES < f.size := Nat.not_lt.mpr hsize
  simp [processShorts, hnt, hconv]

/-- C5 witness: a forced conversion of an eligible input reports the target
geometry 1080x1920 with aspect 1080/1920 and the probed duration and audio
flag. -/
theorem processShorts_converted_finalMeta_witness :
    ((⟨1000, "a.mp4".toList⟩ : FileInfo).size ≤ MAX_FILE_SIZE_BYTES)
  ∧ (processShorts { DEFAULT_PROCESS_OPTIONS with forceConvert := true }
        { file := some ⟨1000, "a.mp4".toList⟩
          probe := .ok ⟨1080, 1920, 30, 9 / 16, true⟩
          convert := none
          stream := .ended }).response
      = .fileStream
          { finalMeta := ⟨1080, 1920, 30, 1080 / 1920, true⟩
            shortsEligible :=
              (validateShorts ⟨1080, 1920, 30, 9 / 16, true⟩
                { DEFAULT_PROCESS_OPTIONS with forceConvert := true }).shortsEligible
            converted := true
            conversionMode := DEFAULT_PROCESS_OPTIONS.mode
            disposition := dispositionFilename true ("a.mp4".toList)
            outPath := .producedOutput } :=
  ⟨by norm_num [MAX_FILE_SIZE_BYTES],
   processShorts_converted_finalMeta { DEFAULT_PROCESS_OPTIONS with forceConvert := true }
     ⟨1000, "a.mp4".toList⟩ ⟨1080, 1920, 30, 9 / 16, true⟩ .ended
     (by norm_num [MAX_FILE_SIZE_BYTES]) (by simp [DEFAULT_PROCESS_OPTIONS])⟩

/-- C10: every streamed (success) response of `processShorts` carries the
`X-Conversion-Mode` header, and it always reports the requested (or
defaulted) mode `options.mode`, whether or not a conversion ran. -/
theorem processShorts_conversionMode_header
    (options : ProcessOptions) (s : Scenario) (r : SuccessResponse)
    (h : (processShorts options s).response = .fileStream r) :
    r.conversionMode = options.mode := by
  obtain ⟨file, probe, conv, strm⟩ := s
  cases file with
  | none => simp [processShorts] at h
  | some f =>
      by_cases hs : MAX_FILE_SIZE_BYTES < f.size
      · simp [processShorts, hs] at h
      · cases probe with
        | failed => simp [processShorts, hs] at h
        | ok meta =>
            cases hb : (options.forceConvert || !(validateShorts meta options).shortsEligible) with
            | false =>
                simp [processShorts, hs, hb] at h
                rw [← h]
            | true =>
                cases conv with
                | some err => simp [processShorts, hs, hb] at h
                | none =>
                    simp [processShorts, hs, hb] at h
                    rw [← h]

/-- C10 witness: on a forced-conversion success run the emitted mode header
equals the requested mode. -/
theorem processShorts_conversionMode_header_witness :
    (processShorts
        { mode := .pad, targetWidth := 1, targetHeight := 1, maxDurationSec := 1,
          tolerance := 1, forceConvert := true }
        { file := some ⟨0, "a.mp4".toList⟩
          probe := .ok ⟨1, 2, 3, 1, true⟩
          convert := none
          stream := .ended }).response
      = .fileStream
          { finalMeta := ⟨1, 1, 3, 1, true⟩
            shortsEligible :=
              (validateShorts ⟨1, 2, 3, 1, true⟩
                { mode := .pad, targetWidth := 1, targetHeight := 1, maxDurationSec := 1,
                  tolerance := 1, forceConvert := true }).shortsEligible
            converted := true
            conversionMode := ConversionMode.pad
            disposition := dispositionFilename true ("a.mp4".toList)
            outPath := .producedOutput }
  ∧ ConversionMode.pad
      = ({ mode := .pad, targetWidth := 1, targetHeight := 1, maxDurationSec := 1,
           tolerance := 1, forceConvert := true } : ProcessOptions).mode := by
  have h :
      (processShorts
          { mode := .pad, targetWidth := 1, targetHeight := 1, maxDurationSec := 1,
            tolerance := 1, forceConvert := true }
          { file := some ⟨0, "a.mp4".toList⟩
            probe := .ok ⟨1, 2, 3, 1, true⟩
            convert := none
            stream := .ended }).response
        = .fileStream
            { finalMeta := ⟨1, 1, 3, 1, true⟩
              shortsEligible :=
                (validateShorts ⟨1, 2, 3, 1, true⟩
                  { mode := .pad, targetWidth := 1, targetHeight := 1, maxDurationSec := 1,
                    tolerance := 1, forceConvert := true }).shortsEligible
              converted := true
              conversionMode := ConversionMode.pad
              disposition := dispositionFilename true ("a.mp4".toList)
              outPath := .producedOutput } := by
    norm_num [processShorts, MAX_FILE_SIZE_BYTES]
  exact ⟨h, processShorts_conversionMode_header _ _ _ h⟩

/-- C6 counterexample: for the original name `a.<` the emitted disposition
filename is `a.<` — the extension is taken from the raw name and appended
without sanitization, so the claim that the disposition filename contains
only allowed characters is false. -/
theorem dispositionFilename_unsanitized_ext_counterexample :
    (dispositionFilename false ("a.<".toList)).all allowedChar = false := by
  decide

/-- C6 amended: only the base component is sanitized: for every
caller-supplied name the sanitized base contains only characters from the
allowed set, never exceeds 200 characters, and is the fixed placeholder
`video` when the name is empty; the raw extension (defaulted to `.mp4`) is
appended to it unsanitized, so the full disposition filename inherits no such
guarantee. -/
theorem sanitizeFilename_amended (name : List Char) :
    (sanitizeFilename name).all allowedChar = true
  ∧ (sanitizeFilename name).length ≤ 200
  ∧ sanitizeFilename [] = "video".toList := by
  refine ⟨?_, ?_, rfl⟩
  · rw [List.all_eq_true]
    intro c hc
    unfold sanitizeFilename at hc
    by_cases h : ((name.map fun c => if allowedChar c then c else '_').take 200).isEmpty = true
    · rw [if_pos h] at hc
      have hv : "video".toList = ['v', 'i', 'd', 'e', 'o'] := rfl
      rw [hv, List.mem_cons, List.mem_cons, List.mem_cons, List.mem_cons,
        List.mem_cons] at hc
      rcases hc with rfl | rfl | rfl | rfl | rfl | hc
      · decide
      · decide
      · decide
      · decide
      · decide
      · simp at hc
    · rw [if_neg h] at hc
      have hc2 : c ∈ name.map fun c => if allowedChar c then c else '_' :=
        List.take_subset 200 _ hc
      rw [List.mem_map] at hc2
      obtain ⟨a, _, rfl⟩ := hc2
      by_cases ha : allowedChar a = true
      · simp [ha]
      · rw [if_neg ha]
        decide
  · unfold sanitizeFilename
    by_cases h : ((name.map fun c => if allowedChar c then c else '_').take 200).isEmpty = true
    · rw [if_pos h]
      decide
    · rw [if_neg h]
      exact List.length_take_le 200 _
